import Mathlib

/-!
Shallow embedding of the PTZOptics VISCA preset save/restore scripts
(`save_camera_presets.py`, `restore_camera_presets.py`, `using-VISCA.py`).

Conventions of the embedding:
* Bytes are `Nat`; a VISCA message is a `List Nat`.
* The TCP link is a script: a list of replies, one consumed per
  `send_command` call.  `none` models a socket error / timeout (the Python
  `send_command` catches `socket.error` and returns `None`); an exhausted
  script also yields `none`.
* Side effects (sends, sleeps, buffer drains) are recorded as an explicit
  event trace.  `clear_buffer` becomes `Event.drain`, `time.sleep(x)`
  becomes `Event.sleep` with the duration in milliseconds.
* The Python scripts store position fields as `f"{value:04X}"` hex strings;
  that formatting is injective on `Nat`, so the embedding keeps the raw
  numeric value in an `Option Nat` field (a missing dictionary key is
  `none`).
-/

namespace Visca

/-- Nibble split of a 16-bit value, most-significant first, as performed by
`set_pan_tilt_position` / `set_zoom_position` in `restore_camera_presets.py`:
`(v>>12)&0xF, (v>>8)&0xF, (v>>4)&0xF, v&0xF`. -/
def encodeNibblePacked16 (v : Nat) : List Nat :=
  [(v >>> 12) &&& 0xF, (v >>> 8) &&& 0xF, (v >>> 4) &&& 0xF, v &&& 0xF]

/-- Nibble reassembly as performed by `get_position` in
`save_camera_presets.py`: `(b0<<12)|(b1<<8)|(b2<<4)|b3`.  The source applies
no mask and no range check to the input bytes. -/
def decodeNibblePacked16 (b0 b1 b2 b3 : Nat) : Nat :=
  (b0 <<< 12) ||| (b1 <<< 8) ||| (b2 <<< 4) ||| b3

/-- A buffered-link side effect performed by the controller. -/
inductive Event where
  | drain
  | send (cmd : List Nat)
  | sleep (ms : Nat)
deriving DecidableEq, Repr

/-- A scripted link: the reply each successive `send_command` receives.
`none` is a socket error (the Python `send_command` catches `socket.error`
and returns `None`); an exhausted script also replies `none` (a dead link
times out forever). -/
abbrev Script := List (Option (List Nat))

/-- One `send_command` call: consume the next scripted reply. -/
def send_command : Script → Option (List Nat) × Script
  | [] => (none, [])
  | r :: rest => (r, rest)

/-- A captured position, as built by `get_position`: a missing dict key is
`none`; a present key holds the raw value whose `f"{v:04X}"` rendering the
Python dict stores (that rendering is injective, so nothing is lost). -/
structure Position where
  pan : Option Nat
  tilt : Option Nat
  zoom : Option Nat
  focus : Option Nat
deriving DecidableEq, Repr

/-- Pan/tilt inquiry `81 09 06 12 FF`. -/
def panTiltInquiry : List Nat := [0x81, 0x09, 0x06, 0x12, 0xFF]

/-- Zoom inquiry `81 09 04 47 FF`. -/
def zoomInquiry : List Nat := [0x81, 0x09, 0x04, 0x47, 0xFF]

/-- Focus inquiry `81 09 04 48 FF`. -/
def focusInquiry : List Nat := [0x81, 0x09, 0x04, 0x48, 0xFF]

/-- Reassemble the 16-bit field stored at reply indices `i..i+3`, exactly as
`get_position` does for pan (`response[2..5]`), tilt (`response[6..9]`),
zoom and focus (`response[2..5]`). -/
def decodeFieldAt (r : List Nat) (i : Nat) : Nat :=
  decodeNibblePacked16 (r.getD i 0) (r.getD (i + 1) 0) (r.getD (i + 2) 0)
    (r.getD (i + 3) 0)

/-- Python guard `response and len(response) >= 11 and response[1] == 0x50`
of the pan/tilt retry loop (`b""` is falsy but is subsumed by the length
test). -/
def ptReplyOk : Option (List Nat) → Bool
  | none => false
  | some r => 11 ≤ r.length && r.getD 1 0 == 0x50

/-- Python guard `response and len(response) >= 7 and response[1] == 0x50`
of the zoom and focus inquiries. -/
def zfReplyOk : Option (List Nat) → Bool
  | none => false
  | some r => 7 ≤ r.length && r.getD 1 0 == 0x50

/-- The decoded pan/tilt pair of an accepted reply: pan from bytes 2..5,
tilt from bytes 6..9. -/
def ptDecode : Option (List Nat) → Option (Nat × Nat)
  | some r => some (decodeFieldAt r 2, decodeFieldAt r 6)
  | none => none

/-- The `for attempt in range(3)` pan/tilt retry loop of `get_position`:
send the inquiry; on an accepted reply decode pan and tilt and break;
otherwise print, sleep 200 ms, and retry. -/
def panTiltAttempts : Nat → Script → Option (Nat × Nat) × Script × List Event
  | 0, s => (none, s, [])
  | n + 1, s =>
    let resp := (send_command s).1
    if ptReplyOk resp then
      (ptDecode resp, (send_command s).2, [Event.send panTiltInquiry])
    else
      let t := panTiltAttempts n (send_command s).2
      (t.1, t.2.1, Event.send panTiltInquiry :: Event.sleep 200 :: t.2.2)

/-- Field decode of a zoom/focus style reply (bytes 2..5), `none` when the
guard rejects it. -/
def zfDecode (resp : Option (List Nat)) : Option Nat :=
  if zfReplyOk resp then
    match resp with
    | some r => some (decodeFieldAt r 2)
    | none => none
  else none

/-- The single zoom inquiry of `get_position`. -/
def zoomQuery (s : Script) : Option Nat × Script × List Event :=
  (zfDecode (send_command s).1, (send_command s).2, [Event.send zoomInquiry])

/-- The single, optional focus inquiry of `get_position`. -/
def focusQuery (s : Script) : Option Nat × Script × List Event :=
  (zfDecode (send_command s).1, (send_command s).2, [Event.send focusInquiry])

/-- `PTZOpticsVISCAController.get_position` from `save_camera_presets.py`:
pan/tilt inquiry with at most 3 attempts, then one zoom inquiry, then (when
`capture_focus`) one focus inquiry.  Fields of the returned `Position` are
populated only from accepted replies.  Note that the body performs no
`clear_buffer`. -/
def get_position (capture_focus : Bool) (s : Script) :
    Position × Script × List Event :=
  let a := panTiltAttempts 3 s
  let z := zoomQuery a.2.1
  let f :=
    if capture_focus then focusQuery z.2.1 else (none, z.2.1, ([] : List Event))
  (⟨a.1.map Prod.fst, a.1.map Prod.snd, z.1, f.1⟩, f.2.1,
    a.2.2 ++ z.2.2 ++ f.2.2)

/-- Trace of `n` failed pan/tilt attempts: a send then the 200 ms retry
pause, repeated. -/
def ptFailTrace : Nat → List Event
  | 0 => []
  | n + 1 => Event.send panTiltInquiry :: Event.sleep 200 :: ptFailTrace n

/-- Whether an event is a command send. -/
def isSend : Event → Bool
  | Event.send _ => true
  | _ => false

/-- The discipline claim C2 asserts of an event trace: every send is
immediately preceded by a drain. -/
abbrev drainedBeforeEverySend (tr : List Event) : Prop :=
  ∀ i, i < tr.length → isSend (tr.getD i Event.drain) →
    0 < i ∧ tr.getD (i - 1) Event.drain = Event.drain

/-- The reserved preset band `90 <= preset <= 99` skipped by the capture
loop of `save_camera_presets.py`. -/
def isReserved (p : Nat) : Bool :=
  decide (90 ≤ p) && decide (p ≤ 99)

/-- The capture loop of `main` in `save_camera_presets.py`, over a scripted
camera: `probe p` is the position `get_position` reports after recalling
preset `p` and waiting the short existence-check delay, `settle p` the
position it reports after the full settle interval.  Reserved presets
90..99 are passed over entirely; a probe equal to `home` records the preset
as skipped; otherwise the post-settle position is stored under the preset's
key.  Returns the table (`all_positions`, in iteration order) and the
skipped list (`skipped_presets`). -/
def capture_scan (home : Position) (probe settle : Nat → Position) :
    List Nat → List (Nat × Position) × List Nat
  | [] => ([], [])
  | preset :: rest =>
    let t := capture_scan home probe settle rest
    if isReserved preset then t
    else if probe preset = home then (t.1, preset :: t.2)
    else ((preset, settle preset) :: t.1, t.2)

/-- `PTZOpticsVISCAController.set_zoom_position` from
`restore_camera_presets.py`: send `81 01 04 47` with the nibble-packed zoom
value, sleep 200 ms, drain. -/
def set_zoom_position (zoom : Nat) : List Event :=
  [Event.send ([0x81, 0x01, 0x04, 0x47] ++ encodeNibblePacked16 zoom ++ [0xFF]),
    Event.sleep 200, Event.drain]

/-- `PTZOpticsVISCAController.set_pan_tilt_position` from
`restore_camera_presets.py`: send `81 01 06 02` with both speed bytes and
the nibble-packed pan and tilt values, sleep 200 ms, drain. -/
def set_pan_tilt_position (pan tilt pan_speed tilt_speed : Nat) : List Event :=
  [Event.send ([0x81, 0x01, 0x06, 0x02, pan_speed, tilt_speed] ++
      encodeNibblePacked16 pan ++ encodeNibblePacked16 tilt ++ [0xFF]),
    Event.sleep 200, Event.drain]

/-- `PTZOpticsVISCAController.set_preset` from `restore_camera_presets.py`
(the spec's `savePreset`): reject a preset number outside `0..254` before
any I/O and return `False`; otherwise send `81 01 04 3F 01 <preset> FF`,
sleep 200 ms, drain, and return `True`. -/
def set_preset (preset_number : Int) : Bool × List Event :=
  if ¬(0 ≤ preset_number ∧ preset_number ≤ 254) then (false, [])
  else
    (true,
      [Event.send [0x81, 0x01, 0x04, 0x3F, 0x01, preset_number.toNat, 0xFF],
        Event.sleep 200, Event.drain])

/-- One iteration of the restore loop in `main` of
`restore_camera_presets.py` for the entry keyed `preset_<n>`: skip (no
events) unless pan, tilt and zoom are all present; otherwise set zoom, set
pan/tilt at full speed, sleep the 10 s settle interval, drain, and save the
preset.  The `Bool` is `True` exactly when the entry counts as restored. -/
def restore_entry (preset_number : Int) (d : Position) : Bool × List Event :=
  match d.pan, d.tilt, d.zoom with
  | some pan, some tilt, some zoom =>
    let sp := set_preset preset_number
    (sp.1,
      set_zoom_position zoom ++ set_pan_tilt_position pan tilt 0x18 0x18 ++
        [Event.sleep 10000, Event.drain] ++ sp.2)
  | _, _, _ => (false, [])

/-- The restore loop of `main` in `restore_camera_presets.py` over the
parsed table entries, in stored order.  Returns `(restored_count,
skipped_count, trace)`. -/
def restore_loop : List (Int × Position) → Nat × Nat × List Event
  | [] => (0, 0, [])
  | (n, d) :: rest =>
    let e := restore_entry n d
    let t := restore_loop rest
    ((if e.1 then t.1 + 1 else t.1), (if e.1 then t.2.1 else t.2.1 + 1),
      e.2 ++ t.2.2)

/-- Outcome of `PTZOpticsVISCAController.interpret_response` in
`using-VISCA.py`, identified by which branch prints (or that none does). -/
inductive RespClass where
  | malformed
  | ack
  | completion
  | error (code : Nat)
  | unknown
  | unaddressed
deriving DecidableEq, Repr

/-- `PTZOpticsVISCAController.interpret_response` from `using-VISCA.py`:
a response shorter than 3 bytes returns silently (`malformed`); with first
byte `0x90`, second byte exactly `0x41` is ACK, exactly `0x51` is
Completion, exactly `0x60` is Error with `response[2]` as code, anything
else prints the unknown-response warning; a first byte other than `0x90`
falls through silently (`unaddressed`). -/
def interpret_response (r : List Nat) : RespClass :=
  if r.length < 3 then RespClass.malformed
  else if r.getD 0 0 = 0x90 then
    if r.getD 1 0 = 0x41 then RespClass.ack
    else if r.getD 1 0 = 0x51 then RespClass.completion
    else if r.getD 1 0 = 0x60 then RespClass.error (r.getD 2 0)
    else RespClass.unknown
  else RespClass.unaddressed

/-- The `error_messages` dict of `interpret_response`, with its
`f"Unknown error: .."` fallback collapsed to a constant tag. -/
def error_message (code : Nat) : String :=
  if code = 0x02 then "Syntax error"
  else if code = 0x03 then "Command buffer full"
  else if code = 0x04 then "Command cancelled"
  else if code = 0x05 then "No socket"
  else if code = 0x41 then "Command not executable"
  else "Unknown error"

/-! Helper lemmas. -/

lemma and_fifteen_eq_mod (x : Nat) : x &&& 15 = x % 16 := by
  have h := Nat.and_pow_two_sub_one_eq_mod x 4
  norm_num at h
  exact h

lemma mul_or_eq_add_4096 (x y : Nat) (hy : y < 4096) :
    x * 4096 ||| y = x * 4096 + y := by
  have h : (4096 : Nat) = 2 ^ 12 := by norm_num
  rw [h, Nat.mul_comm]
  exact (Nat.mul_add_lt_is_or (h ▸ hy) x).symm

lemma mul_or_eq_add_256 (x y : Nat) (hy : y < 256) :
    x * 256 ||| y = x * 256 + y := by
  have h : (256 : Nat) = 2 ^ 8 := by norm_num
  rw [h, Nat.mul_comm]
  exact (Nat.mul_add_lt_is_or (h ▸ hy) x).symm

lemma mul_or_eq_add_16 (x y : Nat) (hy : y < 16) :
    x * 16 ||| y = x * 16 + y := by
  have h : (16 : Nat) = 2 ^ 4 := by norm_num
  rw [h, Nat.mul_comm]
  exact (Nat.mul_add_lt_is_or (h ▸ hy) x).symm

/-- On nibble-sized arguments the decoder is plain positional arithmetic. -/
lemma decodeNibblePacked16_eq_sum (b0 b1 b2 b3 : Nat)
    (h1 : b1 < 16) (h2 : b2 < 16) (h3 : b3 < 16) :
    decodeNibblePacked16 b0 b1 b2 b3 = b0 * 4096 + b1 * 256 + b2 * 16 + b3 := by
  unfold decodeNibblePacked16
  have e12 : b0 <<< 12 = b0 * 4096 := by rw [Nat.shiftLeft_eq]
  have e8 : b1 <<< 8 = b1 * 256 := by rw [Nat.shiftLeft_eq]
  have e4 : b2 <<< 4 = b2 * 16 := by rw [Nat.shiftLeft_eq]
  rw [e12, e8, e4]
  rw [mul_or_eq_add_4096 b0 (b1 * 256) (by omega)]
  have r1 : b0 * 4096 + b1 * 256 = (b0 * 16 + b1) * 256 := by ring
  rw [r1, mul_or_eq_add_256 (b0 * 16 + b1) (b2 * 16) (by omega)]
  have r2 : (b0 * 16 + b1) * 256 + b2 * 16 = ((b0 * 16 + b1) * 16 + b2) * 16 := by
    ring
  rw [r2, mul_or_eq_add_16 ((b0 * 16 + b1) * 16 + b2) b3 h3]

lemma encodeNibblePacked16_eq (v : Nat) :
    encodeNibblePacked16 v = [v / 4096 % 16, v / 256 % 16, v / 16 % 16, v % 16] := by
  unfold encodeNibblePacked16
  rw [Nat.shiftRight_eq_div_pow, Nat.shiftRight_eq_div_pow,
    Nat.shiftRight_eq_div_pow, and_fifteen_eq_mod, and_fifteen_eq_mod,
    and_fifteen_eq_mod, and_fifteen_eq_mod]

lemma ptFailTrace_count_send (n : Nat) :
    (ptFailTrace n).count (Event.send panTiltInquiry) = n := by
  induction n with
  | zero => rfl
  | succ n ih => simp [ptFailTrace, List.count_cons, ih]

lemma ptFailTrace_count_sleep (n : Nat) :
    (ptFailTrace n).count (Event.sleep 200) = n := by
  induction n with
  | zero => rfl
  | succ n ih => simp [ptFailTrace, List.count_cons, ih]

lemma ptFailTrace_mem (n : Nat) (e : Event) (he : e ∈ ptFailTrace n) :
    e = Event.send panTiltInquiry ∨ e = Event.sleep 200 := by
  induction n with
  | zero => simp [ptFailTrace] at he
  | succ n ih =>
    simp only [ptFailTrace, List.mem_cons] at he
    rcases he with h | h | h
    · exact Or.inl h
    · exact Or.inr h
    · exact ih h

/-- When the first `n` scripted replies all fail the guard, the retry loop
exhausts its budget: nothing is decoded, `n` replies are consumed, and the
trace is `n` failed attempts. -/
lemma panTiltAttempts_all_fail (n : Nat) (s : Script)
    (h : ∀ i < n, ¬ ptReplyOk (s.getD i none)) :
    panTiltAttempts n s = (none, s.drop n, ptFailTrace n) := by
  induction n generalizing s with
  | zero => simp [panTiltAttempts, ptFailTrace]
  | succ n ih =>
    cases s with
    | nil =>
      have h0 : ptReplyOk none = false := rfl
      simp only [panTiltAttempts, send_command, h0, Bool.false_eq_true,
        if_false, ptFailTrace]
      rw [ih [] (by intro i hi; simp [List.getD, ptReplyOk])]
      simp
    | cons a rest =>
      have ha : ¬ ptReplyOk a := by
        have := h 0 (by omega)
        simpa using this
      simp only [panTiltAttempts, send_command, ptFailTrace]
      rw [if_neg ha]
      rw [ih rest (by
        intro i hi
        have := h (i + 1) (by omega)
        simpa using this)]
      simp

/-- When the first `i` replies fail and reply `i` (with `i` inside the
budget) passes the guard, the loop stops there: pan/tilt are decoded from
that reply, `i + 1` replies are consumed, and the trace is `i` failures
followed by the accepted send. -/
lemma panTiltAttempts_accept (n i : Nat) (s : Script) (r : List Nat)
    (hi : i < n)
    (hfail : ∀ j < i, ¬ ptReplyOk (s.getD j none))
    (hr : s.getD i none = some r)
    (hok : ptReplyOk (some r)) :
    panTiltAttempts n s =
      (some (decodeFieldAt r 2, decodeFieldAt r 6), s.drop (i + 1),
        ptFailTrace i ++ [Event.send panTiltInquiry]) := by
  induction i generalizing n s with
  | zero =>
    cases s with
    | nil => simp [List.getD] at hr
    | cons a rest =>
      simp only [List.getD_cons_zero] at hr
      subst hr
      cases n with
      | zero => omega
      | succ m =>
        simp [panTiltAttempts, send_command, hok, ptDecode, ptFailTrace]
  | succ i ih =>
    cases s with
    | nil => simp [List.getD] at hr
    | cons a rest =>
      have ha : ¬ ptReplyOk a := by
        have := hfail 0 (by omega)
        simpa using this
      cases n with
      | zero => omega
      | succ m =>
        simp only [panTiltAttempts, send_command]
        rw [if_neg ha]
        rw [ih m rest (by omega)
          (by
            intro j hj
            have := hfail (j + 1) (by omega)
            simpa using this)
          (by simpa using hr)]
        simp [ptFailTrace]

lemma panTiltAttempts_trace_mem (n : Nat) (s : Script) (e : Event)
    (he : e ∈ (panTiltAttempts n s).2.2) :
    e = Event.send panTiltInquiry ∨ e = Event.sleep 200 := by
  induction n generalizing s with
  | zero => simp [panTiltAttempts] at he
  | succ n ih =>
    by_cases hg : ptReplyOk (send_command s).1
    · simp only [panTiltAttempts, if_pos hg] at he
      simp at he
      exact Or.inl he
    · simp only [panTiltAttempts, if_neg hg, List.mem_cons] at he
      rcases he with h | h | h
      · exact Or.inl h
      · exact Or.inr h
      · exact ih _ h

/-- The `get_position` trace is the pan/tilt attempt trace, the zoom send,
and (when enabled) the focus send, in that order. -/
lemma get_position_trace_eq (cf : Bool) (s : Script) :
    (get_position cf s).2.2 =
      (panTiltAttempts 3 s).2.2 ++ [Event.send zoomInquiry] ++
        (if cf then [Event.send focusInquiry] else []) := by
  cases cf <;> simp [get_position, zoomQuery, focusQuery]

lemma get_position_pan_eq (cf : Bool) (s : Script) :
    (get_position cf s).1.pan = ((panTiltAttempts 3 s).1).map Prod.fst := by
  simp [get_position]

lemma get_position_tilt_eq (cf : Bool) (s : Script) :
    (get_position cf s).1.tilt = ((panTiltAttempts 3 s).1).map Prod.snd := by
  simp [get_position]

lemma get_position_trace_mem (cf : Bool) (s : Script) (e : Event)
    (he : e ∈ (get_position cf s).2.2) :
    e = Event.send panTiltInquiry ∨ e = Event.sleep 200 ∨
      e = Event.send zoomInquiry ∨ e = Event.send focusInquiry := by
  rw [get_position_trace_eq] at he
  simp only [List.mem_append] at he
  rcases he with (h | h) | h
  · rcases panTiltAttempts_trace_mem 3 s e h with h' | h'
    · exact Or.inl h'
    · exact Or.inr (Or.inl h')
  · simp at h
    exact Or.inr (Or.inr (Or.inl h))
  · cases cf with
    | false => simp at h
    | true =>
      simp at h
      exact Or.inr (Or.inr (Or.inr h))

/-! Claim theorems. -/

/-- C3: for every 16-bit unsigned value `v` in `0..0xFFFF`, encoding `v` as
four nibbles most-significant first (`(v>>12)&0xF, (v>>8)&0xF, (v>>4)&0xF,
v&0xF`, the split performed by `set_pan_tilt_position` in
`restore_camera_presets.py`) and then decoding those four bytes back
(`(b0<<12)|(b1<<8)|(b2<<4)|b3`, the reassembly performed by `get_position`
in `save_camera_presets.py`) yields `v` again. -/
theorem nibblePacked16_roundtrip (v : Nat) (h : v ≤ 0xFFFF) :
    ∀ b0 b1 b2 b3 : Nat, encodeNibblePacked16 v = [b0, b1, b2, b3] →
      decodeNibblePacked16 b0 b1 b2 b3 = v := by
  intro b0 b1 b2 b3 henc
  rw [encodeNibblePacked16_eq] at henc
  injection henc with e0 henc
  injection henc with e1 henc
  injection henc with e2 henc
  injection henc with e3 _
  subst e0; subst e1; subst e2; subst e3
  rw [decodeNibblePacked16_eq_sum _ _ _ _ (Nat.mod_lt _ (by norm_num))
    (Nat.mod_lt _ (by norm_num)) (Nat.mod_lt _ (by norm_num))]
  omega

/-- C3 witness: the round trip evaluated at the concrete value `0x8A3C`. -/
theorem nibblePacked16_roundtrip_witness :
    decodeNibblePacked16 8 10 3 12 = 0x8A3C :=
  nibblePacked16_roundtrip 0x8A3C (by norm_num) 8 10 3 12 (by decide)

/-- C9: in every Position produced by `get_position`, the pan field is
present iff the tilt field is present — the two are decoded together from
the same accepted pan/tilt inquiry reply or both left unset; no reply
sequence produces exactly one of them. -/
theorem get_position_pan_iff_tilt (cf : Bool) (s : Script) :
    ((get_position cf s).1.pan).isSome = ((get_position cf s).1.tilt).isSome := by
  rw [get_position_pan_eq, get_position_tilt_eq]
  cases (panTiltAttempts 3 s).1 <;> simp

/-- C2 counterexample: with three well-formed replies scripted, the very
first pan/tilt sub-query of `get_position` sends with no preceding drain
(the trace holds no drain at all), refuting the claim that every position
sub-query drains the link's buffered bytes immediately before the inquiry
command is sent. -/
theorem get_position_subqueries_not_drained :
    ¬ drainedBeforeEverySend
        (get_position true
          [some [0x90, 0x50, 0, 0, 0, 0, 0, 0, 0, 0, 0xFF],
            some [0x90, 0x50, 0, 0, 0, 0, 0xFF],
            some [0x90, 0x50, 0, 0, 0, 0, 0xFF]]).2.2 := by
  decide

/-- C2 amended: `get_position` never drains: no sub-query (pan/tilt
attempt, zoom, or focus inquiry) is preceded by a drain inside the Position
Service; the drains happen only in its callers (`recall_preset`, `go_home`,
and the orchestrator loop) before `get_position` is invoked. -/
theorem get_position_never_drains (cf : Bool) (s : Script) :
    Event.drain ∉ (get_position cf s).2.2 := by
  intro he
  rcases get_position_trace_mem cf s Event.drain he with h | h | h | h <;>
    simp at h

/-- C4 counterexample: an accepted pan/tilt reply whose data byte at index
2 is `0x10` — outside the nibble range `0x0..0xF` — is not treated as a
decode failure: the pan field IS populated, with the byte folded in
unmasked, yielding `0x10000`, which exceeds the 16-bit range. -/
theorem out_of_range_byte_not_failure :
    ((get_position false
          [some [0x90, 0x50, 0x10, 0, 0, 0, 0, 0, 0, 0, 0xFF]]).1.pan
        = some 0x10000) ∧ 0xFFFF < 0x10000 := by
  constructor
  · decide
  · norm_num

/-- C4 amended: when decoding a nibble-packed 16-bit field from an accepted
reply, the code applies no range check and no mask: for any reply passing
the pan/tilt guard (length ≥ 11, second byte 0x50), pan and tilt are
populated with the raw shift/or reassembly of bytes 2..5 and 6..9, bytes
outside `0x0..0xF` silently folded into the reconstructed value. -/
theorem decode_populates_unmasked (cf : Bool) (r : List Nat) (s : Script)
    (hlen : 11 ≤ r.length) (hb : r.getD 1 0 = 0x50) :
    (get_position cf (some r :: s)).1.pan = some (decodeFieldAt r 2) ∧
      (get_position cf (some r :: s)).1.tilt = some (decodeFieldAt r 6) := by
  have hok : ptReplyOk (some r) = true := by
    simp only [ptReplyOk, Bool.and_eq_true, decide_eq_true_eq, beq_iff_eq]
    exact ⟨hlen, hb⟩
  have h := panTiltAttempts_accept 3 0 (some r :: s) r (by omega)
    (fun j hj => absurd hj (by omega)) (by simp) hok
  rw [get_position_pan_eq, get_position_tilt_eq, h]
  simp

/-- C4 amended witness: the amended statement applied to the concrete
corrupt reply of the counterexample. -/
theorem decode_populates_unmasked_witness :
    (get_position true
        [some [0x90, 0x50, 0x10, 0, 0, 0, 0, 0, 0, 0, 0xFF]]).1.pan
      = some (decodeFieldAt [0x90, 0x50, 0x10, 0, 0, 0, 0, 0, 0, 0, 0xFF] 2) :=
  (decode_populates_unmasked true [0x90, 0x50, 0x10, 0, 0, 0, 0, 0, 0, 0, 0xFF]
    [] (by decide) (by decide)).1

/-- C5: `get_position` sends the pan/tilt inquiry at most 3 times; the pan
field is populated exactly when one of the first 3 scripted replies passes
the acceptance guard (second byte `0x50` and length ≥ 11, `ptReplyOk`);
each failed attempt is followed by the 200 ms pause (sleeps = failed
sends); and when all 3 attempts fail it gives up with pan and tilt unset
after exactly 3 sends.  The definition is total, so no reply sequence can
make the operation raise: every script yields a (possibly partially
populated) `Position`. -/
theorem get_position_retry_bounded (cf : Bool) (s : Script) :
    ((get_position cf s).2.2).count (Event.send panTiltInquiry) ≤ 3 ∧
    ((get_position cf s).1.pan.isSome ↔ ∃ i < 3, ptReplyOk (s.getD i none)) ∧
    (((get_position cf s).2.2).count (Event.sleep 200) +
        ((get_position cf s).1.pan.isSome.toNat) =
      ((get_position cf s).2.2).count (Event.send panTiltInquiry)) ∧
    ((∀ i < 3, ¬ ptReplyOk (s.getD i none)) →
      (get_position cf s).1.pan = none ∧ (get_position cf s).1.tilt = none ∧
        ((get_position cf s).2.2).count (Event.send panTiltInquiry) = 3) := by
  have hcount : ∀ e : Event, e = Event.send panTiltInquiry ∨ e = Event.sleep 200 →
      ((get_position cf s).2.2).count e = ((panTiltAttempts 3 s).2.2).count e := by
    intro e he
    rw [get_position_trace_eq, List.count_append, List.count_append]
    have h1 : ([Event.send zoomInquiry].count e) = 0 := by
      rcases he with h | h <;> subst h <;> decide
    have h2 : ((if cf then [Event.send focusInquiry] else []).count e) = 0 := by
      cases cf <;> rcases he with h | h <;> subst h <;> decide
    omega
  by_cases hall : ∀ i < 3, ¬ ptReplyOk (s.getD i none)
  · have h := panTiltAttempts_all_fail 3 s hall
    have hs : (get_position cf s).2.2.count (Event.send panTiltInquiry) = 3 := by
      rw [hcount _ (Or.inl rfl), h]
      exact ptFailTrace_count_send 3
    have hsl : (get_position cf s).2.2.count (Event.sleep 200) = 3 := by
      rw [hcount _ (Or.inr rfl), h]
      exact ptFailTrace_count_sleep 3
    have hp : (get_position cf s).1.pan = none := by
      rw [get_position_pan_eq, h]
      rfl
    have ht : (get_position cf s).1.tilt = none := by
      rw [get_position_tilt_eq, h]
      rfl
    refine ⟨by omega, ?_, by simp [hp, hsl, hs], fun _ => ⟨hp, ht, hs⟩⟩
    simp only [hp, Option.isSome_none]
    constructor
    · intro hfalse
      exact absurd hfalse (by simp)
    · rintro ⟨i, hi, hok⟩
      exact absurd hok (hall i hi)
  · push_neg at hall
    obtain ⟨iw, hiw, hokw⟩ := hall
    have hex : ∃ i, ptReplyOk (s.getD i none) = true := ⟨iw, hokw⟩
    set i0 := Nat.find hex with hi0def
    have hok0 : ptReplyOk (s.getD i0 none) = true := Nat.find_spec hex
    have hmin : ∀ j < i0, ¬ ptReplyOk (s.getD j none) := by
      intro j hj
      exact Nat.find_min hex hj
    have hi0lt : i0 < 3 := lt_of_le_of_lt (Nat.find_min' hex hokw) hiw
    obtain ⟨r, hr⟩ : ∃ r, s.getD i0 none = some r := by
      cases hgd : s.getD i0 none with
      | none => rw [hgd] at hok0; exact absurd hok0 (by simp [ptReplyOk])
      | some r => exact ⟨r, rfl⟩
    have h := panTiltAttempts_accept 3 i0 s r hi0lt hmin hr (hr ▸ hok0)
    have hs : (get_position cf s).2.2.count (Event.send panTiltInquiry) = i0 + 1 := by
      rw [hcount _ (Or.inl rfl), h]
      simp [List.count_append, ptFailTrace_count_send]
    have hsl : (get_position cf s).2.2.count (Event.sleep 200) = i0 := by
      rw [hcount _ (Or.inr rfl), h]
      simp [List.count_append, ptFailTrace_count_sleep]
    have hp : (get_position cf s).1.pan = some (decodeFieldAt r 2) := by
      rw [get_position_pan_eq, h]
      rfl
    refine ⟨by omega, ?_, by simp [hp, hsl, hs], fun hall' => ?_⟩
    · constructor
      · intro _
        exact ⟨i0, hi0lt, hok0⟩
      · intro _
        rw [hp]
        rfl
    · exact absurd hok0 (hall' i0 hi0lt)

/-- C5 witness: on an empty (dead) script every attempt fails: pan and tilt
are unset and exactly 3 pan/tilt sends occurred. -/
theorem get_position_retry_bounded_witness :
    (get_position true []).1.pan = none ∧ (get_position true []).1.tilt = none ∧
      ((get_position true []).2.2).count (Event.send panTiltInquiry) = 3 := by
  have h := get_position_retry_bounded true []
  exact h.2.2.2 (by decide)

/-- A filter keeps exactly one element when exactly one list member
satisfies the predicate and the list has no duplicates. -/
lemma filter_eq_singleton {α : Type} (l : List α) (q : α → Bool) (a : α)
    (hnd : l.Nodup) (ha : a ∈ l) (hq : ∀ b ∈ l, q b = true ↔ b = a) :
    l.filter q = [a] := by
  induction l with
  | nil => simp at ha
  | cons x rest ih =>
    have hx := List.nodup_cons.mp hnd
    rcases List.mem_cons.mp ha with h | h
    · subst h
      rw [List.filter_cons_of_pos ((hq a (by simp)).mpr rfl)]
      have : rest.filter q = [] := by
        rw [List.filter_eq_nil_iff]
        intro b hb hqb
        exact hx.1 (((hq b (by simp [hb])).mp hqb) ▸ hb)
      rw [this]
    · have hxa : x ≠ a := by
        intro hcontra
        exact hx.1 (hcontra ▸ h)
      rw [List.filter_cons_of_neg (by
        intro hqx
        exact hxa ((hq x (by simp)).mp hqx))]
      exact ih hx.2 h (fun b hb => hq b (by simp [hb]))

/-- The capture loop splits the preset list by the probe outcome: occupied
(non-reserved, probe differs from home) presets land in the table paired
with their post-settle position, probe-equal ones in the skipped list. -/
lemma capture_scan_eq (home : Position) (probe settle : Nat → Position)
    (presets : List Nat) :
    capture_scan home probe settle presets =
      ((presets.filter fun p => !isReserved p && decide (probe p ≠ home)).map
          (fun p => (p, settle p)),
        presets.filter fun p => !isReserved p && decide (probe p = home)) := by
  induction presets with
  | nil => simp [capture_scan]
  | cons p rest ih =>
    simp only [capture_scan, ih, List.filter_cons]
    by_cases hres : isReserved p = true
    · simp [hres]
    · by_cases heq : probe p = home
      · simp [hres, heq]
      · simp [hres, heq]

/-- The restore loop is a fold of `restore_entry` over the entries in
stored order: the counters count restored/unrestored entries and the trace
is the concatenation of the per-entry traces. -/
lemma restore_loop_eq (entries : List (Int × Position)) :
    restore_loop entries =
      (entries.countP (fun e => (restore_entry e.1 e.2).1),
        entries.countP (fun e => !(restore_entry e.1 e.2).1),
        entries.flatMap (fun e => (restore_entry e.1 e.2).2)) := by
  induction entries with
  | nil => simp [restore_loop]
  | cons e rest ih =>
    obtain ⟨n, d⟩ := e
    simp only [restore_loop, ih, List.countP_cons, List.flatMap_cons]
    by_cases h : (restore_entry n d).1 = true
    · simp [h]
    · simp [h, Bool.not_eq_true] at h ⊢

/-- C1: the capture scan records a preset as skipped (and leaves it out of
the table) exactly when its probe position equals home field-wise, and
stores the post-settle (not post-probe) position for the others, reserved
numbers 90–99 passed over; in particular, if every probe returns home the
table is empty with every non-reserved preset skipped, and if only one
preset probes differently the table holds exactly that one entry with its
post-settle position. -/
theorem capture_scan_spec (home : Position) (probe settle : Nat → Position)
    (presets : List Nat) :
    ((capture_scan home probe settle presets).1 =
        (presets.filter fun p => !isReserved p && decide (probe p ≠ home)).map
          (fun p => (p, settle p)) ∧
      (capture_scan home probe settle presets).2 =
        presets.filter fun p => !isReserved p && decide (probe p = home)) ∧
    ((∀ p ∈ presets, probe p = home) →
      (capture_scan home probe settle presets).1 = [] ∧
      (capture_scan home probe settle presets).2 =
        presets.filter fun p => !isReserved p) ∧
    (presets.Nodup → ∀ q ∈ presets, ¬ isReserved q = true → probe q ≠ home →
      (∀ p ∈ presets, p ≠ q → probe p = home) →
      (capture_scan home probe settle presets).1 = [(q, settle q)]) := by
  rw [capture_scan_eq]
  refine ⟨⟨rfl, rfl⟩, fun hall => ⟨?_, ?_⟩, fun hnd q hq hres hneq honly => ?_⟩
  · have hnil : (presets.filter fun p => !isReserved p && decide (probe p ≠ home)) = [] := by
      rw [List.filter_eq_nil_iff]
      intro p hp
      simp [hall p hp]
    rw [hnil]
    rfl
  · show (presets.filter fun p => !isReserved p && decide (probe p = home)) =
      presets.filter fun p => !isReserved p
    apply List.filter_congr
    intro p hp
    simp [hall p hp]
  · have hfil :
        (presets.filter fun p => !isReserved p && decide (probe p ≠ home)) = [q] := by
      apply filter_eq_singleton presets _ q hnd hq
      intro b hb
      constructor
      · intro hqb
        by_contra hbq
        have := honly b hb hbq
        simp [this] at hqb
      · intro hbq
        subst hbq
        simp [hres, hneq]
    rw [hfil]
    rfl

/-- C1 witness: a scripted camera where only preset 42 probes away from
home, scanned over 40..44: the table is exactly the post-settle entry for
42; and one where every probe is home: empty table, all presets skipped. -/
theorem capture_scan_spec_witness :
    (capture_scan ⟨some 0, some 0, some 0, none⟩
        (fun p => if p = 42 then ⟨some 1, some 1, some 1, none⟩
          else ⟨some 0, some 0, some 0, none⟩)
        (fun _ => ⟨some 2, some 3, some 4, none⟩)
        (List.range' 40 5)).1 = [(42, ⟨some 2, some 3, some 4, none⟩)] ∧
    (capture_scan ⟨some 0, some 0, some 0, none⟩
        (fun _ => ⟨some 0, some 0, some 0, none⟩)
        (fun _ => ⟨some 2, some 3, some 4, none⟩)
        (List.range' 40 5)).1 = [] := by
  constructor
  · exact (capture_scan_spec ⟨some 0, some 0, some 0, none⟩ _ _
      (List.range' 40 5)).2.2 (by decide) 42 (by decide) (by decide)
      (by decide) (by decide)
  · exact ((capture_scan_spec ⟨some 0, some 0, some 0, none⟩ _ _
      (List.range' 40 5)).2.1 (fun p _ => rfl)).1

/-- C6: `set_preset` validates `0 <= n <= 254` before any I/O: out of range
it returns `False` having sent nothing; in range it returns `True` and
sends a command whose byte at index 5 is the preset number and whose final
byte is `0xFF`. -/
theorem set_preset_spec (n : Int) :
    (¬ (0 ≤ n ∧ n ≤ 254) → set_preset n = (false, [])) ∧
    ((0 ≤ n ∧ n ≤ 254) →
      (set_preset n).1 = true ∧
      (set_preset n).2 =
        [Event.send [0x81, 0x01, 0x04, 0x3F, 0x01, n.toNat, 0xFF],
          Event.sleep 200, Event.drain] ∧
      (([0x81, 0x01, 0x04, 0x3F, 0x01, n.toNat, 0xFF].getD 5 0 : Int) = n) ∧
      [0x81, 0x01, 0x04, 0x3F, 0x01, n.toNat, 0xFF].getLast? = some 0xFF) := by
  constructor
  · intro h
    simp [set_preset, h]
  · intro h
    refine ⟨by simp [set_preset, h], by simp [set_preset, h], ?_, by simp⟩
    simp [List.getD]
    exact h.1

/-- C6 witness: preset 300 is rejected with nothing sent; preset 42 is
accepted. -/
theorem set_preset_spec_witness :
    set_preset 300 = (false, []) ∧ (set_preset 42).1 = true := by
  refine ⟨(set_preset_spec 300).1 (by decide), ((set_preset_spec 42).2 (by decide)).1⟩

/-- C7: the restore loop processes entries in stored order (its trace is
the in-order concatenation of per-entry traces and its counters count the
entries by outcome); an entry missing pan, tilt, or zoom is skipped - it
contributes no events at all (no zoom or pan/tilt move) and counts into the
skipped counter; a missing focus alone never causes a skip (an in-range
entry with all three required fields but no focus is restored). -/
theorem restore_skips_incomplete (entries : List (Int × Position)) :
    ((restore_loop entries).2.2 =
        entries.flatMap (fun e => (restore_entry e.1 e.2).2) ∧
      (restore_loop entries).1 =
        entries.countP (fun e => (restore_entry e.1 e.2).1) ∧
      (restore_loop entries).2.1 =
        entries.countP (fun e => !(restore_entry e.1 e.2).1)) ∧
    (∀ n d, (d.pan = none ∨ d.tilt = none ∨ d.zoom = none) →
      restore_entry n d = (false, [])) ∧
    (∀ (n : Int) (pan tilt zoom : Nat), 0 ≤ n → n ≤ 254 →
      (restore_entry n ⟨some pan, some tilt, some zoom, none⟩).1 = true) := by
  refine ⟨?_, ?_, ?_⟩
  · rw [restore_loop_eq]
    exact ⟨rfl, rfl, rfl⟩
  · intro n d hmiss
    obtain ⟨p, t, z, f⟩ := d
    rcases hmiss with h | h | h <;> subst h
    · cases t <;> cases z <;> rfl
    · cases p <;> cases z <;> rfl
    · cases p <;> cases t <;> rfl
  · intro n pan tilt zoom h0 h254
    simp [restore_entry, set_preset, h0, h254]

/-- C7 witness: an entry missing tilt is skipped with no events; an
in-range entry with pan, tilt and zoom but no focus is restored. -/
theorem restore_skips_incomplete_witness :
    restore_entry 5 ⟨some 1, none, some 2, none⟩ = (false, []) ∧
      (restore_entry 7 ⟨some 1, some 2, some 3, none⟩).1 = true := by
  have h := restore_skips_incomplete []
  exact ⟨h.2.1 5 ⟨some 1, none, some 2, none⟩ (Or.inr (Or.inl rfl)),
    h.2.2 7 1 2 3 (by decide) (by decide)⟩

/-- C10: an entry whose key parses to a preset number outside 0..254 but
whose pan, tilt and zoom are all present still has its zoom and pan/tilt
move commands issued and the full 10 s settle wait performed, and only then
is the number rejected by `set_preset` (which contributes no events); the
entry counts as skipped - so an entry counted as skipped has nevertheless
moved the camera. -/
theorem restore_out_of_range_moves_then_skips (n : Int) (pan tilt zoom : Nat)
    (focus : Option Nat) (hn : ¬ (0 ≤ n ∧ n ≤ 254)) :
    restore_entry n ⟨some pan, some tilt, some zoom, focus⟩ =
      (false,
        set_zoom_position zoom ++ set_pan_tilt_position pan tilt 0x18 0x18 ++
          [Event.sleep 10000, Event.drain]) ∧
    restore_loop [(n, ⟨some pan, some tilt, some zoom, focus⟩)] =
      (0, 1,
        set_zoom_position zoom ++ set_pan_tilt_position pan tilt 0x18 0x18 ++
          [Event.sleep 10000, Event.drain]) := by
  have he : restore_entry n ⟨some pan, some tilt, some zoom, focus⟩ =
      (false,
        set_zoom_position zoom ++ set_pan_tilt_position pan tilt 0x18 0x18 ++
          [Event.sleep 10000, Event.drain]) := by
    simp [restore_entry, set_preset, hn]
  refine ⟨he, ?_⟩
  simp [restore_loop, he]

/-- C10 witness: the out-of-range entry `preset_300` with full position
data moves the camera (zoom then pan/tilt then settle) and is counted as
skipped. -/
theorem restore_out_of_range_moves_then_skips_witness :
    restore_loop [((300 : Int), ⟨some 1, some 2, some 3, none⟩)] =
      (0, 1,
        set_zoom_position 3 ++ set_pan_tilt_position 1 2 0x18 0x18 ++
          [Event.sleep 10000, Event.drain]) :=
  (restore_out_of_range_moves_then_skips 300 1 2 3 none (by decide)).2

/-- C8 counterexample: `[0x90, 0x42, 0xFF]` has second byte `0x42`, of the
claimed ACK form `0x4y`, but `interpret_response` compares against `0x41`
exactly and lands in the unknown-response branch instead of ACK. -/
theorem interpret_response_0x42_not_ack :
    interpret_response [0x90, 0x42, 0xFF] = RespClass.unknown ∧
      interpret_response [0x90, 0x42, 0xFF] ≠ RespClass.ack := by
  decide

/-- C8 amended: classification is a pure function of the first 2-3 bytes,
but it matches exact second bytes rather than nibble classes: for a
response of length ≥ 3 starting `0x90`, second byte exactly `0x41` is ACK,
exactly `0x51` Completion, exactly `0x60` Error carrying the third byte as
code (`0x02` rendering "Syntax error"); any other second byte is the
unknown class; and any response shorter than 3 bytes (not 2) is left
unclassified as malformed. -/
theorem interpret_response_spec (b c : Nat) (rest : List Nat) :
    (interpret_response (0x90 :: b :: c :: rest) = RespClass.ack ↔ b = 0x41) ∧
    (interpret_response (0x90 :: b :: c :: rest) = RespClass.completion ↔
      b = 0x51) ∧
    (b = 0x60 → interpret_response (0x90 :: b :: c :: rest) =
      RespClass.error c) ∧
    (∀ r : List Nat, r.length < 3 → interpret_response r = RespClass.malformed) ∧
    error_message 0x02 = "Syntax error" := by
  have hint : interpret_response (0x90 :: b :: c :: rest) =
      (if b = 0x41 then RespClass.ack
        else if b = 0x51 then RespClass.completion
        else if b = 0x60 then RespClass.error c
        else RespClass.unknown) := by
    unfold interpret_response
    rw [if_neg (by simp only [List.length_cons]; omega)]
    rw [if_pos (by rfl)]
    simp [List.getD_cons_succ, List.getD_cons_zero]
  refine ⟨?_, ?_, ?_, ?_, rfl⟩
  · rw [hint]
    by_cases h41 : b = 0x41
    · simp [h41]
    · by_cases h51 : b = 0x51 <;> by_cases h60 : b = 0x60 <;>
        simp [h41, h51, h60]
  · rw [hint]
    by_cases h41 : b = 0x41
    · simp [h41]
    · by_cases h51 : b = 0x51 <;> by_cases h60 : b = 0x60 <;>
        simp [h41, h51, h60]
  · intro h60
    rw [hint]
    by_cases h41 : b = 0x41
    · omega
    · by_cases h51 : b = 0x51
      · omega
      · simp [h41, h51, h60]
  · intro r hlen
    simp [interpret_response, hlen]

/-- C8 amended witness: the exact-byte classification evaluated on the
spec's own test vectors. -/
theorem interpret_response_spec_witness :
    interpret_response [0x90, 0x41, 0xFF] = RespClass.ack ∧
      interpret_response [0x90, 0x60, 0x02, 0xFF] = RespClass.error 0x02 ∧
      interpret_response [0x90] = RespClass.malformed := by
  refine ⟨(interpret_response_spec 0x41 0xFF []).1.mpr rfl,
    (interpret_response_spec 0x60 0x02 [0xFF]).2.2.1 rfl,
    ((interpret_response_spec 0 0 []).2.2.2.1 [0x90] (by decide))⟩

end Visca
